import Mathlib

/-!
Formal model of `src/cmake/redirect.py`: a command-line helper that runs a
child process, optionally redirecting its standard input, output and error
streams to files, and exits with the child's exit status.

The script is straight-line Python:

* lines 7-14: an `argparse` parser with three optional flags (`--in`,
  `--out`, `--err`, each taking one value), a required positional `command`
  whose `type` converter is `pathlib.Path(p).absolute()`, and a positional
  `arguments` with `nargs=argparse.REMAINDER`;
* lines 16-20: if `--in` was given (and the value is a non-empty string,
  Python truthiness), the input file is opened and fully read into `stdin`,
  otherwise `stdin = None`;
* lines 22-30: if `--out` (resp. `--err`) was given, the file is opened with
  mode `"w"` (create/truncate) into `stdout` (resp. `stderr`), else `None`;
* line 32: `subprocess.run([command] + arguments, stdin=stdin, stdout=stdout,
  stderr=stderr)`;
* lines 34-38: the opened output/error handles are closed;
* line 40: `os.sys.exit(status.returncode)`.

The model is a shallow embedding: the file system and the child process are
parameters, and a run produces an event trace (files opened, data read and
written, the spawn with its stream dispositions, the child exit, handle
closes, the final process exit) together with an outcome.  CPython semantics
of the library calls are embedded faithfully; in particular
`subprocess.run(..., stdin=s)` with `s` a `str` raises
`AttributeError: 'str' object has no attribute 'fileno'` inside
`Popen._get_handles`, before any child is spawned (the idiomatic way to feed
a string is the `input=` keyword, which the script does not use).
-/

namespace Redirect

/-- Result of `parser.parse_args()` (lines 7-14): the three optional flag
values, the `command` positional (already passed through the `type`
converter, i.e. absolutized), and the `REMAINDER` positional. -/
structure ParsedArgs where
  in_file : Option String
  out_file : Option String
  err_file : Option String
  command : String
  arguments : List String
deriving Repr, DecidableEq

/-- Intermediate option values while scanning the command line; argparse
defaults every optional to `None` and later occurrences overwrite earlier
ones. -/
structure RawOpts where
  in_file : Option String
  out_file : Option String
  err_file : Option String
deriving Repr, DecidableEq

/-- Ways `parse_args` can fail; every one makes argparse print a usage
message and call `sys.exit(2)`. -/
inductive ParseError
  | missingCommand
  | missingValue (flag : String)
  | unrecognized (tok : String)
deriving Repr, DecidableEq

/-- POSIX absolute path test used by `pathlib`: the path starts with the
separator character. -/
def isAbsolutePath (p : String) : Bool :=
  p.data.head? = some '/'

/-- Model of `pathlib.Path(p).absolute()`: a relative path is interpreted
against the current working directory (joined with a separator), an absolute
path is returned unchanged.  (Textual normalisation of duplicate separators
is not modelled; no claim depends on it.) -/
def absolutize (cwd p : String) : String :=
  if isAbsolutePath p then p else cwd ++ "/" ++ p

/-- A token that argparse classifies as an optional (it starts with the
prefix character and is not the bare `"-"`, which argparse treats as a
positional). -/
def optionLike (s : String) : Bool :=
  (s.data.head? = some '-') && !(s = "-")

/-- Value carried by a `--flag=value` spelling of an option, if `t` has that
shape for the given flag. -/
def eqFormValue (flag t : String) : Option String :=
  if (flag ++ "=").data.isPrefixOf t.data then some (t.drop (flag.length + 1))
  else none

/-- Store a flag value in the accumulator (`dest` fields of lines 8-10);
a repeated flag overwrites, as argparse does. -/
def setOpt (acc : RawOpts) (flag v : String) : RawOpts :=
  if flag = "--in" then { acc with in_file := some v }
  else if flag = "--out" then { acc with out_file := some v }
  else { acc with err_file := some v }

/-- Build the `ParsedArgs` once the `command` positional has been found:
the `type` converter absolutizes it and `nargs=REMAINDER` hands every later
token, flag-like or not, to `arguments` verbatim. -/
def mkParsed (cwd : String) (acc : RawOpts) (c : String) (rest : List String) :
    ParsedArgs :=
  ⟨acc.in_file, acc.out_file, acc.err_file, absolutize cwd c, rest⟩

/-- Scan of the argv tokens, modelling `argparse` for this particular parser:
before the first positional, the three known flags consume one value each
(either separated, refusing an option-like value, or `=`-joined), a bare
`--` forces the next token to be the positional, any other option-like token
is unrecognized, and the first positional becomes `command` with everything
after it going to the `REMAINDER`.  (argparse also accepts unambiguous
abbreviations such as `--i`; only the full spellings are modelled.) -/
def parseLoop (cwd : String) : RawOpts → List String → Except ParseError ParsedArgs
  | _, [] => Except.error ParseError.missingCommand
  | acc, t :: ts =>
    if t = "--in" ∨ t = "--out" ∨ t = "--err" then
      match ts with
      | [] => Except.error (ParseError.missingValue t)
      | v :: ts' =>
        if optionLike v then Except.error (ParseError.missingValue t)
        else parseLoop cwd (setOpt acc t v) ts'
    else
      match eqFormValue "--in" t with
      | some v => parseLoop cwd { acc with in_file := some v } ts
      | none =>
      match eqFormValue "--out" t with
      | some v => parseLoop cwd { acc with out_file := some v } ts
      | none =>
      match eqFormValue "--err" t with
      | some v => parseLoop cwd { acc with err_file := some v } ts
      | none =>
      if t = "--" then
        match ts with
        | [] => Except.error ParseError.missingCommand
        | c :: rest => Except.ok (mkParsed cwd acc c rest)
      else if optionLike t then Except.error (ParseError.unrecognized t)
      else Except.ok (mkParsed cwd acc t ts)

/-- Model of `parser.parse_args()` (line 14) on a given argv (the tokens
after the program name), with `cwd` the current working directory used by
`pathlib.Path.absolute`. -/
def parseArgs (cwd : String) (argv : List String) : Except ParseError ParsedArgs :=
  parseLoop cwd ⟨none, none, none⟩ argv

/-- Python truthiness of an optional string, as used by `if args.in_file:`
(lines 16, 22, 27, 34, 37): `None` and the empty string are falsy. -/
def truthy : Option String → Bool
  | none => false
  | some s => !(s = "")

/-- The path stored in a flag value (only ever used under `truthy`). -/
def getPath (o : Option String) : String :=
  o.getD ""

/-- The ambient file system a run executes against: `read p` returns the
full contents of `p` if `open(p)` succeeds (line 17), `none` if it raises;
`writable p` says whether `open(p, "w")` succeeds (lines 23 and 28). -/
structure FS where
  read : String → Option String
  writable : String → Bool

/-- What a terminated child produced: its exit status and the bytes it wrote
to its standard output and standard error. -/
structure ChildResult where
  returncode : Int
  outData : String
  errData : String
deriving Repr, DecidableEq

/-- Behaviour of the operating system's exec: given the command path and the
argument vector, either the launch fails (`none`: not found / not
executable) or the child runs to completion with the given result.  (The
child's behaviour cannot depend on a redirected stdin string because the
script never manages to deliver one, see `spawnStage`.) -/
def ChildModel : Type :=
  String → List String → Option ChildResult

/-- Disposition of one standard stream at spawn time: inherited from the
calling process, or redirected to a file. -/
inductive Disp
  | inherit
  | redirected (path : String)
deriving Repr, DecidableEq

/-- Observable events of a run, in program order. -/
inductive Event
  | openRead (p : String)
  | readData (p : String) (content : String)
  | openWrite (p : String)
  | spawn (cmd : String) (args : List String) (din dout derr : Disp)
  | writeData (p : String) (data : String)
  | childExit (code : Int)
  | closeFile (p : String)
  | exitProc (code : Int)
deriving Repr, DecidableEq

/-- The Python value bound to `stdin` at line 32: `None`, or the `str` read
from the input file. -/
inductive StdinArg
  | noRedirect
  | strArg (s : String)
deriving Repr, DecidableEq

/-- Uncaught Python exceptions the script can die of. -/
inductive PyError
  | fileNotFound (p : String)
  | cannotWrite (p : String)
  | attributeError
  | launchError (cmd : String)
deriving Repr, DecidableEq

/-- How the calling process terminates: a deliberate `sys.exit` with the
child's status, an argparse usage error (`sys.exit(2)`), or an uncaught
exception (CPython exits with status 1). -/
inductive Outcome
  | exited (code : Int)
  | usage
  | uncaught (e : PyError)
deriving Repr, DecidableEq

/-- The exit status of the calling process for each outcome. -/
def exitCodeOf : Outcome → Int
  | Outcome.exited n => n
  | Outcome.usage => 2
  | Outcome.uncaught _ => 1

/-- A completed run: its event trace, outcome, and whatever child output
reached the calling process's own (inherited) standard streams. -/
structure RunResult where
  events : List Event
  outcome : Outcome
  parentOut : String
  parentErr : String
deriving Repr, DecidableEq

/-- Stream disposition induced by an optional redirection target. -/
def dispOf : Option String → Disp
  | some p => Disp.redirected p
  | none => Disp.inherit

/-- Write events produced on a redirected stream (none when inherited). -/
def writesOf (t : Option String) (data : String) : List Event :=
  match t with
  | some p => [Event.writeData p data]
  | none => []

/-- Close events for a redirected stream's handle (lines 34-38). -/
def closesOf : Option String → List Event
  | some p => [Event.closeFile p]
  | none => []

/-- Data arriving on the calling process's own stream: the child's output
when the stream is inherited, nothing when it went to a file. -/
def sinkOr (t : Option String) (data : String) : String :=
  match t with
  | some _ => ""
  | none => data

/-- Model of line 32 onwards.  `subprocess.run` first resolves the stream
arguments inside `Popen._get_handles`; a `str` passed as `stdin=` has no
`fileno()` and raises `AttributeError` there, before any child process is
created.  Otherwise the child is spawned with `[command] + arguments`; a
launch failure raises out of `subprocess.run`; on success the run blocks
until the child exits, the redirected handles are closed (lines 34-38) and
the script exits with the child's `returncode` (line 40). -/
def spawnStage (child : ChildModel) (a : ParsedArgs) (evts : List Event)
    (sArg : StdinArg) (outT errT : Option String) : RunResult :=
  match sArg with
  | StdinArg.strArg _ => ⟨evts, Outcome.uncaught PyError.attributeError, "", ""⟩
  | StdinArg.noRedirect =>
    match child a.command a.arguments with
    | none => ⟨evts, Outcome.uncaught (PyError.launchError a.command), "", ""⟩
    | some r =>
      ⟨evts
        ++ Event.spawn a.command a.arguments Disp.inherit (dispOf outT) (dispOf errT)
          :: (writesOf outT r.outData ++ writesOf errT r.errData
            ++ Event.childExit r.returncode
              :: (closesOf outT ++ closesOf errT ++ [Event.exitProc r.returncode])),
        Outcome.exited r.returncode,
        sinkOr outT r.outData,
        sinkOr errT r.errData⟩

/-- Lines 27-30: open the `--err` target for writing (create/truncate) if
the flag was given, then run the spawn stage. -/
def stderrStage (fs : FS) (child : ChildModel) (a : ParsedArgs)
    (evts : List Event) (sArg : StdinArg) (outT : Option String) : RunResult :=
  if truthy a.err_file then
    if fs.writable (getPath a.err_file) then
      spawnStage child a (evts ++ [Event.openWrite (getPath a.err_file)]) sArg
        outT (some (getPath a.err_file))
    else ⟨evts, Outcome.uncaught (PyError.cannotWrite (getPath a.err_file)), "", ""⟩
  else spawnStage child a evts sArg outT none

/-- Lines 22-25: open the `--out` target for writing (create/truncate) if
the flag was given, then fall through to the stderr stage. -/
def stdoutStage (fs : FS) (child : ChildModel) (a : ParsedArgs)
    (evts : List Event) (sArg : StdinArg) : RunResult :=
  if truthy a.out_file then
    if fs.writable (getPath a.out_file) then
      stderrStage fs child a (evts ++ [Event.openWrite (getPath a.out_file)]) sArg
        (some (getPath a.out_file))
    else ⟨evts, Outcome.uncaught (PyError.cannotWrite (getPath a.out_file)), "", ""⟩
  else stderrStage fs child a evts sArg none

/-- Lines 16-20: if `--in` was given, open the file and read it whole into
a string; a failing `open` raises before any output file is touched. -/
def stdinStage (fs : FS) (child : ChildModel) (a : ParsedArgs) : RunResult :=
  if truthy a.in_file then
    match fs.read (getPath a.in_file) with
    | none =>
      ⟨[Event.openRead (getPath a.in_file)],
        Outcome.uncaught (PyError.fileNotFound (getPath a.in_file)), "", ""⟩
    | some content =>
      stdoutStage fs child a
        [Event.openRead (getPath a.in_file),
          Event.readData (getPath a.in_file) content]
        (StdinArg.strArg content)
  else stdoutStage fs child a [] StdinArg.noRedirect

/-- Run the script body (lines 16-40) on already-parsed arguments. -/
def runParsed (fs : FS) (child : ChildModel) (a : ParsedArgs) : RunResult :=
  stdinStage fs child a

/-- Run the whole script on an argv: `parse_args` happens first (line 14)
and any parse error makes argparse exit with a usage message before any
file is opened or process spawned. -/
def runScript (cwd : String) (fs : FS) (child : ChildModel)
    (argv : List String) : RunResult :=
  match parseArgs cwd argv with
  | Except.error _ => ⟨[], Outcome.usage, "", ""⟩
  | Except.ok a => runParsed fs child a

/-- Effect of one event on the contents of path `p`: `open(p, "w")`
creates/truncates, a redirected stream's write appends to the open handle,
every other event leaves the file alone. -/
def writeStep (p : String) (acc : Option String) : Event → Option String
  | Event.openWrite q => if q = p then some "" else acc
  | Event.writeData q d => if q = p then some (acc.getD "" ++ d) else acc
  | _ => acc

/-- Final contents of path `p` after the events of a run, starting from
initial contents `init` (`none` = the file does not exist). -/
def finalContents (evs : List Event) (p : String) (init : Option String) :
    Option String :=
  evs.foldl (writeStep p) init

/-- The canonical argv prefix spelled by the three optional flags. -/
def flagTokens (inf outf errf : Option String) : List String :=
  (match inf with | some v => ["--in", v] | none => [])
    ++ (match outf with | some v => ["--out", v] | none => [])
    ++ (match errf with | some v => ["--err", v] | none => [])

/-- Check that a parse produced a result rather than a usage error. -/
def parseSucceeds (r : Except ParseError ParsedArgs) : Bool :=
  match r with
  | Except.ok _ => true
  | Except.error _ => false

/-- The redirection target actually used for a stream, given its flag
value: the path when the flag is (truthily) present, nothing otherwise. -/
def targetOf (o : Option String) : Option String :=
  if truthy o then some (getPath o) else none

@[simp]
theorem mem_writesOf_iff {e : Event} {t : Option String} {d : String} :
    e ∈ writesOf t d ↔ ∃ p, t = some p ∧ e = Event.writeData p d := by
  cases t <;> simp [writesOf]

@[simp]
theorem mem_closesOf_iff {e : Event} {t : Option String} :
    e ∈ closesOf t ↔ ∃ p, t = some p ∧ e = Event.closeFile p := by
  cases t <;> simp [closesOf]

theorem head_of_isPrefixOf {c : Char} {l s : List Char}
    (h : (c :: l).isPrefixOf s = true) : s.head? = some c := by
  cases s with
  | nil => simp [List.isPrefixOf] at h
  | cons b bs =>
    simp only [List.isPrefixOf, Bool.and_eq_true, beq_iff_eq] at h
    simp [h.1]

theorem ne_of_optionLike_false {s t : String} (h : optionLike s = false)
    (ht : optionLike t = true) : s ≠ t := by
  intro heq
  rw [heq, ht] at h
  simp at h

theorem eqFormValue_eq_none {flag s : String} (h : optionLike s = false)
    (hf : ∃ l, (flag ++ "=").data = '-' :: '-' :: l) : eqFormValue flag s = none := by
  unfold eqFormValue
  rw [if_neg]
  intro hp
  obtain ⟨l, hl⟩ := hf
  rw [hl] at hp
  have hhead : s.data.head? = some '-' := head_of_isPrefixOf hp
  unfold optionLike at h
  rw [Bool.and_eq_false_iff] at h
  rcases h with h | h
  · simp [hhead] at h
  · have hs : s = "-" := by
      simpa using h
    rw [hs] at hp
    simp [List.isPrefixOf, show ("-".data = ['-']) from rfl] at hp

theorem positional_branch_facts {s : String} (h : optionLike s = false) :
    ¬(s = "--in" ∨ s = "--out" ∨ s = "--err") ∧
    eqFormValue "--in" s = none ∧ eqFormValue "--out" s = none ∧
    eqFormValue "--err" s = none := by
  refine ⟨?_, ?_, ?_, ?_⟩
  · rintro (h1 | h1 | h1) <;>
      exact absurd h1 (ne_of_optionLike_false h (by decide))
  · exact eqFormValue_eq_none h ⟨"in=".data, rfl⟩
  · exact eqFormValue_eq_none h ⟨"out=".data, rfl⟩
  · exact eqFormValue_eq_none h ⟨"err=".data, rfl⟩

theorem isAbsolutePath_absolutize {cwd p : String}
    (h : isAbsolutePath cwd = true) : isAbsolutePath (absolutize cwd p) = true := by
  unfold absolutize
  split
  · assumption
  · unfold isAbsolutePath at h ⊢
    rw [decide_eq_true_iff] at h ⊢
    cases hd : cwd.data with
    | nil => rw [hd] at h; simp at h
    | cons c cs =>
      rw [hd] at h
      simp only [List.head?] at h
      simp only [String.data_append, hd]
      simp only [List.cons_append, List.head?]
      exact h

theorem parseLoop_ok_shape {cwd : String} (acc : RawOpts) (l : List String) :
    ∀ (a : ParsedArgs),
      parseLoop cwd acc l = Except.ok a →
      ∃ c rest acc', a = mkParsed cwd acc' c rest := by
  induction acc, l using parseLoop.induct cwd with
  | case1 x => intro a h; simp [parseLoop] at h
  | case2 acc t hflag =>
    intro a h
    unfold parseLoop at h
    rw [if_pos hflag] at h
    exact absurd h (by simp)
  | case3 acc t hflag v ts' hopt =>
    intro a h
    unfold parseLoop at h
    rw [if_pos hflag] at h
    simp only [hopt, if_true] at h
    exact absurd h (by simp)
  | case4 acc t hflag v ts' hopt ih =>
    intro a h
    unfold parseLoop at h
    rw [if_pos hflag] at h
    rw [Bool.not_eq_true] at hopt
    simp only [hopt, Bool.false_eq_true, if_false] at h
    exact ih _ h
  | case5 acc t ts hflag v heq ih =>
    intro a h
    unfold parseLoop at h
    rw [if_neg hflag] at h
    rw [heq] at h
    exact ih _ h
  | case6 acc t ts hflag heq1 v heq2 ih =>
    intro a h
    unfold parseLoop at h
    rw [if_neg hflag] at h
    rw [heq1, heq2] at h
    exact ih _ h
  | case7 acc t ts hflag heq1 heq2 v heq3 ih =>
    intro a h
    unfold parseLoop at h
    rw [if_neg hflag] at h
    rw [heq1, heq2, heq3] at h
    exact ih _ h
  | case8 acc hflag heq1 heq2 heq3 =>
    intro a h
    unfold parseLoop at h
    rw [if_neg hflag] at h
    rw [heq1, heq2, heq3] at h
    simp only [if_pos rfl] at h
    exact absurd h (by simp)
  | case9 acc v ts' hflag heq1 heq2 heq3 =>
    intro a h
    unfold parseLoop at h
    rw [if_neg hflag] at h
    rw [heq1, heq2, heq3] at h
    simp only [if_pos rfl] at h
    exact ⟨v, ts', acc, by simpa using h.symm⟩
  | case10 acc t ts hflag heq1 heq2 heq3 hdd hopt =>
    intro a h
    unfold parseLoop at h
    rw [if_neg hflag] at h
    rw [heq1, heq2, heq3] at h
    rw [if_neg hdd] at h
    simp only [hopt, if_true] at h
    exact absurd h (by simp)
  | case11 acc t ts hflag heq1 heq2 heq3 hdd hopt =>
    intro a h
    unfold parseLoop at h
    rw [if_neg hflag] at h
    rw [heq1, heq2, heq3] at h
    rw [if_neg hdd] at h
    rw [Bool.not_eq_true] at hopt
    simp only [hopt, Bool.false_eq_true, if_false] at h
    exact ⟨t, ts, acc, by simpa using h.symm⟩

theorem parseArgs_ok_command_absolute {cwd : String} {argv : List String}
    {a : ParsedArgs} (hcwd : isAbsolutePath cwd = true)
    (h : parseArgs cwd argv = Except.ok a) : isAbsolutePath a.command = true := by
  obtain ⟨c, rest, acc', ha⟩ := parseLoop_ok_shape ⟨none, none, none⟩ argv a h
  rw [ha]
  exact isAbsolutePath_absolutize hcwd

theorem stdinStage_noIn {fs : FS} {child : ChildModel} {a : ParsedArgs}
    (h : truthy a.in_file = false) :
    stdinStage fs child a = stdoutStage fs child a [] StdinArg.noRedirect := by
  simp [stdinStage, h]

theorem stdinStage_read {fs : FS} {child : ChildModel} {a : ParsedArgs}
    {s : String} (h : truthy a.in_file = true)
    (hr : fs.read (getPath a.in_file) = some s) :
    stdinStage fs child a =
      stdoutStage fs child a
        [Event.openRead (getPath a.in_file), Event.readData (getPath a.in_file) s]
        (StdinArg.strArg s) := by
  simp [stdinStage, h, hr]

theorem stdinStage_readFail {fs : FS} {child : ChildModel} {a : ParsedArgs}
    (h : truthy a.in_file = true) (hr : fs.read (getPath a.in_file) = none) :
    stdinStage fs child a =
      ⟨[Event.openRead (getPath a.in_file)],
        Outcome.uncaught (PyError.fileNotFound (getPath a.in_file)), "", ""⟩ := by
  simp [stdinStage, h, hr]

theorem stdoutStage_out {fs : FS} {child : ChildModel} {a : ParsedArgs}
    {evts : List Event} {sArg : StdinArg} (h : truthy a.out_file = true)
    (hw : fs.writable (getPath a.out_file) = true) :
    stdoutStage fs child a evts sArg =
      stderrStage fs child a (evts ++ [Event.openWrite (getPath a.out_file)])
        sArg (some (getPath a.out_file)) := by
  simp [stdoutStage, h, hw]

theorem stdoutStage_outFail {fs : FS} {child : ChildModel} {a : ParsedArgs}
    {evts : List Event} {sArg : StdinArg} (h : truthy a.out_file = true)
    (hw : fs.writable (getPath a.out_file) = false) :
    stdoutStage fs child a evts sArg =
      ⟨evts, Outcome.uncaught (PyError.cannotWrite (getPath a.out_file)), "", ""⟩ := by
  simp [stdoutStage, h, hw]

theorem stdoutStage_noOut {fs : FS} {child : ChildModel} {a : ParsedArgs}
    {evts : List Event} {sArg : StdinArg} (h : truthy a.out_file = false) :
    stdoutStage fs child a evts sArg = stderrStage fs child a evts sArg none := by
  simp [stdoutStage, h]

theorem stderrStage_err {fs : FS} {child : ChildModel} {a : ParsedArgs}
    {evts : List Event} {sArg : StdinArg} {outT : Option String}
    (h : truthy a.err_file = true)
    (hw : fs.writable (getPath a.err_file) = true) :
    stderrStage fs child a evts sArg outT =
      spawnStage child a (evts ++ [Event.openWrite (getPath a.err_file)])
        sArg outT (some (getPath a.err_file)) := by
  simp [stderrStage, h, hw]

theorem stderrStage_errFail {fs : FS} {child : ChildModel} {a : ParsedArgs}
    {evts : List Event} {sArg : StdinArg} {outT : Option String}
    (h : truthy a.err_file = true)
    (hw : fs.writable (getPath a.err_file) = false) :
    stderrStage fs child a evts sArg outT =
      ⟨evts, Outcome.uncaught (PyError.cannotWrite (getPath a.err_file)), "", ""⟩ := by
  simp [stderrStage, h, hw]

theorem stderrStage_noErr {fs : FS} {child : ChildModel} {a : ParsedArgs}
    {evts : List Event} {sArg : StdinArg} {outT : Option String}
    (h : truthy a.err_file = false) :
    stderrStage fs child a evts sArg outT =
      spawnStage child a evts sArg outT none := by
  simp [stderrStage, h]

theorem spawnStage_strArg {child : ChildModel} {a : ParsedArgs}
    {evts : List Event} {s : String} {outT errT : Option String} :
    spawnStage child a evts (StdinArg.strArg s) outT errT =
      ⟨evts, Outcome.uncaught PyError.attributeError, "", ""⟩ :=
  rfl

theorem spawnStage_launchFail {child : ChildModel} {a : ParsedArgs}
    {evts : List Event} {outT errT : Option String}
    (h : child a.command a.arguments = none) :
    spawnStage child a evts StdinArg.noRedirect outT errT =
      ⟨evts, Outcome.uncaught (PyError.launchError a.command), "", ""⟩ := by
  simp [spawnStage, h]

theorem spawnStage_success {child : ChildModel} {a : ParsedArgs}
    {evts : List Event} {outT errT : Option String} {r : ChildResult}
    (h : child a.command a.arguments = some r) :
    spawnStage child a evts StdinArg.noRedirect outT errT =
      ⟨evts
        ++ Event.spawn a.command a.arguments Disp.inherit (dispOf outT) (dispOf errT)
          :: (writesOf outT r.outData ++ writesOf errT r.errData
            ++ Event.childExit r.returncode
              :: (closesOf outT ++ closesOf errT ++ [Event.exitProc r.returncode])),
        Outcome.exited r.returncode,
        sinkOr outT r.outData,
        sinkOr errT r.errData⟩ := by
  simp [spawnStage, h]

theorem spawn_mem_spawnStage {child : ChildModel} {a : ParsedArgs}
    {evts : List Event} {sArg : StdinArg} {outT errT : Option String}
    {c : String} {ar : List String} {d1 d2 d3 : Disp}
    (h : Event.spawn c ar d1 d2 d3 ∈ (spawnStage child a evts sArg outT errT).events) :
    Event.spawn c ar d1 d2 d3 ∈ evts ∨
      (c = a.command ∧ ar = a.arguments ∧ d1 = Disp.inherit ∧
        d2 = dispOf outT ∧ d3 = dispOf errT) := by
  cases sArg with
  | strArg s => exact Or.inl h
  | noRedirect =>
    cases hc : child a.command a.arguments with
    | none =>
      rw [spawnStage_launchFail hc] at h
      exact Or.inl h
    | some r =>
      rw [spawnStage_success hc] at h
      simp only [List.mem_append, List.mem_cons, mem_writesOf_iff,
        mem_closesOf_iff, List.mem_singleton, Event.spawn.injEq,
        reduceCtorEq, and_false, false_and, exists_false, or_false,
        false_or] at h
      rcases h with h | h | h
      · exact Or.inl h
      · exact Or.inr h
      · simp at h

theorem spawn_mem_stderrStage {fs : FS} {child : ChildModel} {a : ParsedArgs}
    {evts : List Event} {sArg : StdinArg} {outT : Option String}
    {c : String} {ar : List String} {d1 d2 d3 : Disp}
    (h : Event.spawn c ar d1 d2 d3 ∈ (stderrStage fs child a evts sArg outT).events) :
    Event.spawn c ar d1 d2 d3 ∈ evts ∨
      (c = a.command ∧ ar = a.arguments ∧ d1 = Disp.inherit ∧
        d2 = dispOf outT ∧ d3 = dispOf (targetOf a.err_file)) := by
  cases he : truthy a.err_file with
  | false =>
    rw [stderrStage_noErr he] at h
    rcases spawn_mem_spawnStage h with h | h
    · exact Or.inl h
    · simpa [targetOf, he] using Or.inr h
  | true =>
    cases hw : fs.writable (getPath a.err_file) with
    | false =>
      rw [stderrStage_errFail he hw] at h
      exact Or.inl h
    | true =>
      rw [stderrStage_err he hw] at h
      rcases spawn_mem_spawnStage h with h | h
      · rcases List.mem_append.mp h with h | h
        · exact Or.inl h
        · simp at h
      · simpa [targetOf, he] using Or.inr h

theorem spawn_mem_stdoutStage {fs : FS} {child : ChildModel} {a : ParsedArgs}
    {evts : List Event} {sArg : StdinArg}
    {c : String} {ar : List String} {d1 d2 d3 : Disp}
    (h : Event.spawn c ar d1 d2 d3 ∈ (stdoutStage fs child a evts sArg).events) :
    Event.spawn c ar d1 d2 d3 ∈ evts ∨
      (c = a.command ∧ ar = a.arguments ∧ d1 = Disp.inherit ∧
        d2 = dispOf (targetOf a.out_file) ∧ d3 = dispOf (targetOf a.err_file)) := by
  cases ho : truthy a.out_file with
  | false =>
    rw [stdoutStage_noOut ho] at h
    rcases spawn_mem_stderrStage h with h | h
    · exact Or.inl h
    · simpa [targetOf, ho] using Or.inr h
  | true =>
    cases hw : fs.writable (getPath a.out_file) with
    | false =>
      rw [stdoutStage_outFail ho hw] at h
      exact Or.inl h
    | true =>
      rw [stdoutStage_out ho hw] at h
      rcases spawn_mem_stderrStage h with h | h
      · rcases List.mem_append.mp h with h | h
        · exact Or.inl h
        · simp at h
      · simpa [targetOf, ho] using Or.inr h

theorem spawn_mem_runParsed {fs : FS} {child : ChildModel} {a : ParsedArgs}
    {c : String} {ar : List String} {d1 d2 d3 : Disp}
    (h : Event.spawn c ar d1 d2 d3 ∈ (runParsed fs child a).events) :
    c = a.command ∧ ar = a.arguments ∧ d1 = Disp.inherit ∧
      d2 = dispOf (targetOf a.out_file) ∧ d3 = dispOf (targetOf a.err_file) := by
  unfold runParsed at h
  cases hi : truthy a.in_file with
  | false =>
    rw [stdinStage_noIn hi] at h
    rcases spawn_mem_stdoutStage h with h | h
    · simp at h
    · exact h
  | true =>
    cases hr : fs.read (getPath a.in_file) with
    | none =>
      rw [stdinStage_readFail hi hr] at h
      simp at h
    | some s =>
      rw [stdinStage_read hi hr] at h
      rcases spawn_mem_stdoutStage h with h | h
      · simp at h
      · exact h

theorem childExit_spawnStage {child : ChildModel} {a : ParsedArgs}
    {evts : List Event} {sArg : StdinArg} {outT errT : Option String} {n : Int}
    (hne : Event.childExit n ∉ evts)
    (h : Event.childExit n ∈ (spawnStage child a evts sArg outT errT).events) :
    (spawnStage child a evts sArg outT errT).outcome = Outcome.exited n ∧
      Event.exitProc n ∈ (spawnStage child a evts sArg outT errT).events := by
  cases sArg with
  | strArg s => exact absurd h hne
  | noRedirect =>
    cases hc : child a.command a.arguments with
    | none =>
      rw [spawnStage_launchFail hc] at h
      exact absurd h hne
    | some r =>
      rw [spawnStage_success hc] at h ⊢
      simp only [List.mem_append, List.mem_cons, mem_writesOf_iff,
        mem_closesOf_iff, List.mem_singleton, Event.childExit.injEq,
        reduceCtorEq, and_false, false_and, exists_false, or_false,
        false_or] at h
      rcases h with h | h | h
      · exact absurd h hne
      · subst h
        exact ⟨rfl, by simp⟩
      · simp at h

theorem childExit_stderrStage {fs : FS} {child : ChildModel} {a : ParsedArgs}
    {evts : List Event} {sArg : StdinArg} {outT : Option String} {n : Int}
    (hne : Event.childExit n ∉ evts)
    (h : Event.childExit n ∈ (stderrStage fs child a evts sArg outT).events) :
    (stderrStage fs child a evts sArg outT).outcome = Outcome.exited n ∧
      Event.exitProc n ∈ (stderrStage fs child a evts sArg outT).events := by
  cases he : truthy a.err_file with
  | false =>
    rw [stderrStage_noErr he] at h ⊢
    exact childExit_spawnStage hne h
  | true =>
    cases hw : fs.writable (getPath a.err_file) with
    | false =>
      rw [stderrStage_errFail he hw] at h
      exact absurd h hne
    | true =>
      rw [stderrStage_err he hw] at h ⊢
      exact childExit_spawnStage (by simp [hne]) h

theorem childExit_stdoutStage {fs : FS} {child : ChildModel} {a : ParsedArgs}
    {evts : List Event} {sArg : StdinArg} {n : Int}
    (hne : Event.childExit n ∉ evts)
    (h : Event.childExit n ∈ (stdoutStage fs child a evts sArg).events) :
    (stdoutStage fs child a evts sArg).outcome = Outcome.exited n ∧
      Event.exitProc n ∈ (stdoutStage fs child a evts sArg).events := by
  cases ho : truthy a.out_file with
  | false =>
    rw [stdoutStage_noOut ho] at h ⊢
    exact childExit_stderrStage hne h
  | true =>
    cases hw : fs.writable (getPath a.out_file) with
    | false =>
      rw [stdoutStage_outFail ho hw] at h
      exact absurd h hne
    | true =>
      rw [stdoutStage_out ho hw] at h ⊢
      exact childExit_stderrStage (by simp [hne]) h

theorem childExit_runParsed {fs : FS} {child : ChildModel} {a : ParsedArgs}
    {n : Int} (h : Event.childExit n ∈ (runParsed fs child a).events) :
    (runParsed fs child a).outcome = Outcome.exited n ∧
      Event.exitProc n ∈ (runParsed fs child a).events := by
  unfold runParsed at h ⊢
  cases hi : truthy a.in_file with
  | false =>
    rw [stdinStage_noIn hi] at h ⊢
    exact childExit_stdoutStage (by simp) h
  | true =>
    cases hr : fs.read (getPath a.in_file) with
    | none =>
      rw [stdinStage_readFail hi hr] at h
      simp at h
    | some s =>
      rw [stdinStage_read hi hr] at h ⊢
      exact childExit_stdoutStage (by simp) h

theorem parseLoop_positional (cwd : String) (acc : RawOpts) (cmd : String)
    (rest : List String) (hcmd : optionLike cmd = false) (hdd : cmd ≠ "--") :
    parseLoop cwd acc (cmd :: rest) = Except.ok (mkParsed cwd acc cmd rest) := by
  obtain ⟨hnf, hef1, hef2, hef3⟩ := positional_branch_facts hcmd
  unfold parseLoop
  rw [if_neg hnf, hef1, hef2, hef3, if_neg hdd]
  simp [hcmd]

theorem parseArgs_flagTokens_cmd (cwd : String) (inf outf errf : Option String)
    (cmd : String) (rest : List String)
    (hi : optionLike (getPath inf) = false)
    (ho : optionLike (getPath outf) = false)
    (he : optionLike (getPath errf) = false)
    (hcmd : optionLike cmd = false) (hdd : cmd ≠ "--") :
    parseArgs cwd (flagTokens inf outf errf ++ cmd :: rest) =
      Except.ok ⟨inf, outf, errf, absolutize cwd cmd, rest⟩ := by
  cases inf <;> cases outf <;> cases errf <;>
    simp_all [parseArgs, parseLoop, flagTokens, setOpt, mkParsed, getPath,
      parseLoop_positional]

theorem parseArgs_flagTokens_noCmd (cwd : String) (inf outf errf : Option String)
    (hi : optionLike (getPath inf) = false)
    (ho : optionLike (getPath outf) = false)
    (he : optionLike (getPath errf) = false) :
    parseArgs cwd (flagTokens inf outf errf) =
      Except.error ParseError.missingCommand := by
  cases inf <;> cases outf <;> cases errf <;>
    simp_all [parseArgs, parseLoop, flagTokens, setOpt, getPath]

/-- Small concrete file system used to instantiate the theorems: one
readable file `in.txt` containing `hello`, and every path writable except
`locked`. -/
def sampleFS : FS :=
  ⟨fun p => if p = "in.txt" then some "hello" else none,
    fun p => !(p = "locked")⟩

/-- Concrete child behaviour: exits with status 7 after writing fixed bytes
to both streams. -/
def sampleChild : ChildModel :=
  fun _ _ => some ⟨7, "out-bytes", "err-bytes"⟩

/-- Concrete child behaviour: the launch always fails (command not found or
not executable). -/
def noLaunchChild : ChildModel :=
  fun _ _ => none

/-- Claim C1: whenever the child process was spawned and terminated (the
trace records its exit with status `n`), the calling process terminates via
`os.sys.exit` with exactly that status: the outcome is a deliberate exit
whose code is `n`, passed through verbatim. -/
theorem c1_child_exit_status_propagated (fs : FS) (child : ChildModel)
    (a : ParsedArgs) (n : Int)
    (h : Event.childExit n ∈ (runParsed fs child a).events) :
    (runParsed fs child a).outcome = Outcome.exited n ∧
      exitCodeOf (runParsed fs child a).outcome = n ∧
      Event.exitProc n ∈ (runParsed fs child a).events := by
  obtain ⟨h1, h2⟩ := childExit_runParsed h
  refine ⟨h1, ?_, h2⟩
  rw [h1]
  rfl

/-- Claim C1 witness: a child exiting with the non-zero status 7 makes the
tool exit with status 7. -/
theorem c1_witness :
    (runParsed sampleFS sampleChild
        ⟨none, some "o.txt", none, "/bin/prog", ["a"]⟩).outcome =
      Outcome.exited 7 :=
  (c1_child_exit_status_propagated sampleFS sampleChild
    ⟨none, some "o.txt", none, "/bin/prog", ["a"]⟩ 7 (by decide)).1

/-- Claim C4: every token after the `command` positional is handed to the
child verbatim and in order — the parser stores exactly the remaining
tokens, including ones that start with `-` or `--`, and the argv passed to
`subprocess.run` carries exactly those tokens as the child's arguments. -/
theorem c4_remainder_forwarded_verbatim (cwd : String)
    (inf outf errf : Option String) (cmd : String) (rest : List String)
    (fs : FS) (child : ChildModel)
    (hi : optionLike (getPath inf) = false)
    (ho : optionLike (getPath outf) = false)
    (he : optionLike (getPath errf) = false)
    (hcmd : optionLike cmd = false) (hdd : cmd ≠ "--") :
    parseArgs cwd (flagTokens inf outf errf ++ cmd :: rest) =
      Except.ok ⟨inf, outf, errf, absolutize cwd cmd, rest⟩ ∧
    ∀ c ar d1 d2 d3,
      Event.spawn c ar d1 d2 d3 ∈
          (runScript cwd fs child (flagTokens inf outf errf ++ cmd :: rest)).events →
      ar = rest := by
  have hp := parseArgs_flagTokens_cmd cwd inf outf errf cmd rest hi ho he hcmd hdd
  refine ⟨hp, ?_⟩
  intro c ar d1 d2 d3 hmem
  unfold runScript at hmem
  rw [hp] at hmem
  exact (spawn_mem_runParsed hmem).2.1

/-- Claim C4 witness: the tokens `["--out", "not-a-flag"]` after the
command are not consumed by the tool's own parser. -/
theorem c4_witness :
    parseArgs "/w"
        (flagTokens none (some "o.txt") none ++ "prog" :: ["--out", "not-a-flag"]) =
      Except.ok
        ⟨none, some "o.txt", none, absolutize "/w" "prog", ["--out", "not-a-flag"]⟩ :=
  (c4_remainder_forwarded_verbatim "/w" none (some "o.txt") none "prog"
    ["--out", "not-a-flag"] sampleFS sampleChild (by decide) (by decide)
    (by decide) (by decide) (by decide)).1

/-- Claim C5: a successful parse always stores an absolute `command` path
(the `type` converter applies `pathlib.Path(p).absolute()`), and the spawn
uses exactly that absolutized path. -/
theorem c5_command_resolved_absolute (cwd : String) (argv : List String)
    (a : ParsedArgs) (fs : FS) (child : ChildModel)
    (hcwd : isAbsolutePath cwd = true)
    (hp : parseArgs cwd argv = Except.ok a) :
    isAbsolutePath a.command = true ∧
    ∀ c ar d1 d2 d3,
      Event.spawn c ar d1 d2 d3 ∈ (runScript cwd fs child argv).events →
      c = a.command ∧ isAbsolutePath c = true := by
  have h1 := parseArgs_ok_command_absolute hcwd hp
  refine ⟨h1, ?_⟩
  intro c ar d1 d2 d3 hmem
  unfold runScript at hmem
  rw [hp] at hmem
  have h2 := (spawn_mem_runParsed hmem).1
  refine ⟨h2, ?_⟩
  rw [h2]
  exact h1

/-- Claim C5 witness: the relative command `prog` parsed with working
directory `/w` is stored absolutized. -/
theorem c5_witness :
    isAbsolutePath
      (ParsedArgs.command ⟨none, none, none, absolutize "/w" "prog", []⟩) = true :=
  (c5_command_resolved_absolute "/w" ["prog"]
    ⟨none, none, none, absolutize "/w" "prog", []⟩ sampleFS sampleChild
    (by decide) (by rfl)).1

/-- Claim C7: an argv that carries only flags and no `command` positional
makes the parser fail with `missingCommand`; the whole run then exits with
the usage status 2 (non-zero) and an empty event trace — no file was opened
and no process was spawned. -/
theorem c7_missing_command_usage_error (cwd : String)
    (inf outf errf : Option String) (fs : FS) (child : ChildModel)
    (hi : optionLike (getPath inf) = false)
    (ho : optionLike (getPath outf) = false)
    (he : optionLike (getPath errf) = false) :
    parseArgs cwd (flagTokens inf outf errf) =
      Except.error ParseError.missingCommand ∧
    runScript cwd fs child (flagTokens inf outf errf) =
      ⟨[], Outcome.usage, "", ""⟩ ∧
    exitCodeOf Outcome.usage ≠ 0 := by
  have hp := parseArgs_flagTokens_noCmd cwd inf outf errf hi ho he
  refine ⟨hp, ?_, by decide⟩
  unfold runScript
  rw [hp]

/-- Claim C7 witness: `--in in.txt --out o` with no command is a usage
error with an empty trace. -/
theorem c7_witness :
    runScript "/w" sampleFS sampleChild (flagTokens (some "in.txt") (some "o") none) =
      ⟨[], Outcome.usage, "", ""⟩ :=
  (c7_missing_command_usage_error "/w" (some "in.txt") (some "o") none
    sampleFS sampleChild (by decide) (by decide) (by decide)).2.1

theorem events_prefix_spawnStage (child : ChildModel) (a : ParsedArgs)
    (evts : List Event) (sArg : StdinArg) (outT errT : Option String) :
    ∃ l, (spawnStage child a evts sArg outT errT).events = evts ++ l := by
  cases sArg with
  | strArg s => exact ⟨[], by simp [spawnStage_strArg]⟩
  | noRedirect =>
    cases hc : child a.command a.arguments with
    | none => exact ⟨[], by simp [spawnStage_launchFail hc]⟩
    | some r => exact ⟨_, by rw [spawnStage_success hc]⟩

theorem events_prefix_stderrStage (fs : FS) (child : ChildModel) (a : ParsedArgs)
    (evts : List Event) (sArg : StdinArg) (outT : Option String) :
    ∃ l, (stderrStage fs child a evts sArg outT).events = evts ++ l := by
  cases he : truthy a.err_file with
  | false =>
    rw [stderrStage_noErr he]
    exact events_prefix_spawnStage child a evts sArg outT none
  | true =>
    cases hw : fs.writable (getPath a.err_file) with
    | false => exact ⟨[], by simp [stderrStage_errFail he hw]⟩
    | true =>
      rw [stderrStage_err he hw]
      obtain ⟨l, hl⟩ :=
        events_prefix_spawnStage child a
          (evts ++ [Event.openWrite (getPath a.err_file)]) sArg outT
          (some (getPath a.err_file))
      exact ⟨[Event.openWrite (getPath a.err_file)] ++ l, by rw [hl, List.append_assoc]⟩

theorem events_prefix_stdoutStage (fs : FS) (child : ChildModel) (a : ParsedArgs)
    (evts : List Event) (sArg : StdinArg) :
    ∃ l, (stdoutStage fs child a evts sArg).events = evts ++ l := by
  cases ho : truthy a.out_file with
  | false =>
    rw [stdoutStage_noOut ho]
    exact events_prefix_stderrStage fs child a evts sArg none
  | true =>
    cases hw : fs.writable (getPath a.out_file) with
    | false => exact ⟨[], by simp [stdoutStage_outFail ho hw]⟩
    | true =>
      rw [stdoutStage_out ho hw]
      obtain ⟨l, hl⟩ :=
        events_prefix_stderrStage fs child a
          (evts ++ [Event.openWrite (getPath a.out_file)]) sArg
          (some (getPath a.out_file))
      exact ⟨[Event.openWrite (getPath a.out_file)] ++ l, by rw [hl, List.append_assoc]⟩

/-- Claim C8: a stream whose redirection flag is omitted is passed to
`subprocess.run` as `None`, i.e. inherited — every spawn in the trace
carries the `inherit` disposition for each omitted stream; with all three
flags omitted the whole run is a bare spawn with fully inherited streams
whose output lands on the calling process's own streams; and all eight
presence/absence combinations of the three flags are accepted by the
parser. -/
theorem c8_omitted_streams_inherited (fs : FS) (child : ChildModel)
    (a : ParsedArgs) :
    (∀ c ar d1 d2 d3,
      Event.spawn c ar d1 d2 d3 ∈ (runParsed fs child a).events →
        (truthy a.in_file = false → d1 = Disp.inherit) ∧
        (truthy a.out_file = false → d2 = Disp.inherit) ∧
        (truthy a.err_file = false → d3 = Disp.inherit)) ∧
    (a.in_file = none → a.out_file = none → a.err_file = none →
      ∀ r, child a.command a.arguments = some r →
        runParsed fs child a =
          ⟨[Event.spawn a.command a.arguments Disp.inherit Disp.inherit Disp.inherit,
            Event.childExit r.returncode, Event.exitProc r.returncode],
            Outcome.exited r.returncode, r.outData, r.errData⟩) ∧
    (∀ bi bo be : Bool,
      parseSucceeds (parseArgs "/w"
        (flagTokens (if bi then some "fi" else none)
          (if bo then some "fo" else none)
          (if be then some "fe" else none) ++ ["/bin/prog"])) = true) := by
  refine ⟨?_, ?_, by decide⟩
  · intro c ar d1 d2 d3 hmem
    obtain ⟨-, -, h1, h2, h3⟩ := spawn_mem_runParsed hmem
    refine ⟨fun _ => h1, fun ho => ?_, fun he => ?_⟩
    · rw [h2]
      simp [targetOf, ho, dispOf]
    · rw [h3]
      simp [targetOf, he, dispOf]
  · intro h1 h2 h3 r hr
    unfold runParsed
    rw [stdinStage_noIn (by rw [h1]; rfl), stdoutStage_noOut (by rw [h2]; rfl),
      stderrStage_noErr (by rw [h3]; rfl), spawnStage_success hr]
    simp [writesOf, closesOf, dispOf, sinkOr]

/-- Claim C8 witness: with no redirection flags, the run is a single spawn
with all three streams inherited, and the child's bytes reach the calling
process's own streams. -/
theorem c8_witness :
    runParsed sampleFS sampleChild ⟨none, none, none, "/bin/prog", []⟩ =
      ⟨[Event.spawn "/bin/prog" [] Disp.inherit Disp.inherit Disp.inherit,
        Event.childExit 7, Event.exitProc 7],
        Outcome.exited 7, "out-bytes", "err-bytes"⟩ :=
  (c8_omitted_streams_inherited sampleFS sampleChild
      ⟨none, none, none, "/bin/prog", []⟩).2.1 rfl rfl rfl
    ⟨7, "out-bytes", "err-bytes"⟩ rfl

/-- Claim C6: setup failures are not caught.  If the input file cannot be
opened the run dies with an uncaught `FileNotFoundError` and no spawn ever
appears in the trace; likewise when the output or error target cannot be
opened for writing; if the command cannot be launched, `subprocess.run`'s
error propagates uncaught.  Every uncaught error exits with a non-zero
status (CPython's status 1), distinct from deliberate status propagation. -/
theorem c6_setup_failures_uncaught (fs : FS) (child : ChildModel)
    (a : ParsedArgs) :
    (truthy a.in_file = true → fs.read (getPath a.in_file) = none →
      (runParsed fs child a).outcome =
        Outcome.uncaught (PyError.fileNotFound (getPath a.in_file)) ∧
      (∀ c ar d1 d2 d3,
        Event.spawn c ar d1 d2 d3 ∉ (runParsed fs child a).events)) ∧
    ((truthy a.in_file = true → (fs.read (getPath a.in_file)).isSome = true) →
      truthy a.out_file = true → fs.writable (getPath a.out_file) = false →
      (runParsed fs child a).outcome =
        Outcome.uncaught (PyError.cannotWrite (getPath a.out_file)) ∧
      (∀ c ar d1 d2 d3,
        Event.spawn c ar d1 d2 d3 ∉ (runParsed fs child a).events)) ∧
    ((truthy a.in_file = true → (fs.read (getPath a.in_file)).isSome = true) →
      (truthy a.out_file = true → fs.writable (getPath a.out_file) = true) →
      truthy a.err_file = true → fs.writable (getPath a.err_file) = false →
      (runParsed fs child a).outcome =
        Outcome.uncaught (PyError.cannotWrite (getPath a.err_file)) ∧
      (∀ c ar d1 d2 d3,
        Event.spawn c ar d1 d2 d3 ∉ (runParsed fs child a).events)) ∧
    (truthy a.in_file = false →
      (truthy a.out_file = true → fs.writable (getPath a.out_file) = true) →
      (truthy a.err_file = true → fs.writable (getPath a.err_file) = true) →
      child a.command a.arguments = none →
      (runParsed fs child a).outcome =
        Outcome.uncaught (PyError.launchError a.command)) ∧
    (∀ e, exitCodeOf (Outcome.uncaught e) ≠ 0) := by
  refine ⟨?_, ?_, ?_, ?_, by intro e; simp [exitCodeOf]⟩
  · intro hi hr
    unfold runParsed
    rw [stdinStage_readFail hi hr]
    exact ⟨rfl, by intro c ar d1 d2 d3; simp⟩
  · intro hin ho hw
    unfold runParsed
    cases hi : truthy a.in_file with
    | false =>
      rw [stdinStage_noIn hi, stdoutStage_outFail ho hw]
      exact ⟨rfl, by intro c ar d1 d2 d3; simp⟩
    | true =>
      obtain ⟨s, hr⟩ := Option.isSome_iff_exists.mp (hin hi)
      rw [stdinStage_read hi hr, stdoutStage_outFail ho hw]
      exact ⟨rfl, by intro c ar d1 d2 d3; simp⟩
  · intro hin hout he hw
    unfold runParsed
    cases hi : truthy a.in_file with
    | false =>
      rw [stdinStage_noIn hi]
      cases ho : truthy a.out_file with
      | false =>
        rw [stdoutStage_noOut ho, stderrStage_errFail he hw]
        exact ⟨rfl, by intro c ar d1 d2 d3; simp⟩
      | true =>
        rw [stdoutStage_out ho (hout ho), stderrStage_errFail he hw]
        exact ⟨rfl, by intro c ar d1 d2 d3; simp⟩
    | true =>
      obtain ⟨s, hr⟩ := Option.isSome_iff_exists.mp (hin hi)
      rw [stdinStage_read hi hr]
      cases ho : truthy a.out_file with
      | false =>
        rw [stdoutStage_noOut ho, stderrStage_errFail he hw]
        exact ⟨rfl, by intro c ar d1 d2 d3; simp⟩
      | true =>
        rw [stdoutStage_out ho (hout ho), stderrStage_errFail he hw]
        exact ⟨rfl, by intro c ar d1 d2 d3; simp⟩
  · intro hi hout herr hl
    unfold runParsed
    rw [stdinStage_noIn hi]
    cases ho : truthy a.out_file with
    | false =>
      rw [stdoutStage_noOut ho]
      cases he : truthy a.err_file with
      | false => rw [stderrStage_noErr he, spawnStage_launchFail hl]
      | true => rw [stderrStage_err he (herr he), spawnStage_launchFail hl]
    | true =>
      rw [stdoutStage_out ho (hout ho)]
      cases he : truthy a.err_file with
      | false => rw [stderrStage_noErr he, spawnStage_launchFail hl]
      | true => rw [stderrStage_err he (herr he), spawnStage_launchFail hl]

/-- Claim C6 witness: a missing input file (`nope.txt`) makes the run die
with an uncaught `FileNotFoundError` before anything else happens. -/
theorem c6_witness :
    (runParsed sampleFS sampleChild
        ⟨some "nope.txt", some "o.txt", none, "/bin/prog", []⟩).outcome =
      Outcome.uncaught (PyError.fileNotFound "nope.txt") :=
  ((c6_setup_failures_uncaught sampleFS sampleChild
      ⟨some "nope.txt", some "o.txt", none, "/bin/prog", []⟩).1
    (by decide) (by decide)).1

/-- Claim C10: with `--in` given, the input file is opened and read as the
very first actions.  If that open fails the run stops there: the trace is
just the failed open, so the `--out`/`--err` targets are not created or
truncated — `finalContents` of every path is unchanged.  If the read
succeeds, the trace starts with the open and the full read, before any
output file is opened. -/
theorem c10_input_read_before_outputs (fs : FS) (child : ChildModel)
    (a : ParsedArgs) (h : truthy a.in_file = true) :
    (fs.read (getPath a.in_file) = none →
      runParsed fs child a =
        ⟨[Event.openRead (getPath a.in_file)],
          Outcome.uncaught (PyError.fileNotFound (getPath a.in_file)), "", ""⟩ ∧
      (∀ q, Event.openWrite q ∉ (runParsed fs child a).events) ∧
      (∀ q init, finalContents (runParsed fs child a).events q init = init)) ∧
    (∀ s, fs.read (getPath a.in_file) = some s →
      ∃ l, (runParsed fs child a).events =
        Event.openRead (getPath a.in_file)
          :: Event.readData (getPath a.in_file) s :: l) := by
  constructor
  · intro hr
    have E : runParsed fs child a =
        ⟨[Event.openRead (getPath a.in_file)],
          Outcome.uncaught (PyError.fileNotFound (getPath a.in_file)), "", ""⟩ :=
      stdinStage_readFail h hr
    refine ⟨E, ?_, ?_⟩
    · intro q
      rw [E]
      simp
    · intro q init
      rw [E]
      simp [finalContents, writeStep]
  · intro s hr
    have E : runParsed fs child a =
        stdoutStage fs child a
          [Event.openRead (getPath a.in_file),
            Event.readData (getPath a.in_file) s] (StdinArg.strArg s) :=
      stdinStage_read h hr
    rw [E]
    obtain ⟨l, hl⟩ :=
      events_prefix_stdoutStage fs child a
        [Event.openRead (getPath a.in_file),
          Event.readData (getPath a.in_file) s] (StdinArg.strArg s)
    exact ⟨l, by rw [hl]; rfl⟩

/-- Claim C10 witness: with `--in nope.txt --out o.txt`, the missing input
file stops the run before `o.txt` is created or truncated. -/
theorem c10_witness :
    runParsed sampleFS sampleChild
        ⟨some "nope.txt", some "o.txt", none, "/bin/prog", []⟩ =
      ⟨[Event.openRead "nope.txt"],
        Outcome.uncaught (PyError.fileNotFound "nope.txt"), "", ""⟩ :=
  ((c10_input_read_before_outputs sampleFS sampleChild
      ⟨some "nope.txt", some "o.txt", none, "/bin/prog", []⟩
      (by decide)).1 (by decide)).1

/-- Claim C2 (code bug): on `--in in.txt /bin/cat` with `in.txt` readable,
the script reads the file into a `str` and passes it as the `stdin=`
argument of `subprocess.run` (line 32) instead of `input=`; CPython's
`Popen._get_handles` then raises `AttributeError` (`'str' object has no
attribute 'fileno'`) before any child exists.  The run therefore dies
uncaught, no process is ever spawned, and no child ever receives the file's
contents on its standard input — contradicting the claimed behaviour. -/
theorem c2_stdin_delivery_crashes :
    runScript "/w" sampleFS sampleChild ["--in", "in.txt", "/bin/cat"] =
      ⟨[Event.openRead "in.txt", Event.readData "in.txt" "hello"],
        Outcome.uncaught PyError.attributeError, "", ""⟩ ∧
    ∀ c ar d1 d2 d3,
      Event.spawn c ar d1 d2 d3 ∉
        (runScript "/w" sampleFS sampleChild ["--in", "in.txt", "/bin/cat"]).events := by
  have E : runScript "/w" sampleFS sampleChild ["--in", "in.txt", "/bin/cat"] =
      ⟨[Event.openRead "in.txt", Event.readData "in.txt" "hello"],
        Outcome.uncaught PyError.attributeError, "", ""⟩ := by decide
  refine ⟨E, ?_⟩
  intro c ar d1 d2 d3
  rw [E]
  simp

theorem stderrStage_strArg_not_exited (fs : FS) (child : ChildModel)
    (a : ParsedArgs) (evts : List Event) (s : String) (outT : Option String)
    (n : Int) :
    ¬(stderrStage fs child a evts (StdinArg.strArg s) outT).outcome =
      Outcome.exited n := by
  intro h
  cases he : truthy a.err_file with
  | false =>
    rw [stderrStage_noErr he, spawnStage_strArg] at h
    simp at h
  | true =>
    cases hw : fs.writable (getPath a.err_file) with
    | false =>
      rw [stderrStage_errFail he hw] at h
      simp at h
    | true =>
      rw [stderrStage_err he hw, spawnStage_strArg] at h
      simp at h

theorem stdoutStage_strArg_not_exited (fs : FS) (child : ChildModel)
    (a : ParsedArgs) (evts : List Event) (s : String) (n : Int) :
    ¬(stdoutStage fs child a evts (StdinArg.strArg s)).outcome =
      Outcome.exited n := by
  intro h
  cases ho : truthy a.out_file with
  | false =>
    rw [stdoutStage_noOut ho] at h
    exact stderrStage_strArg_not_exited fs child a evts s none n h
  | true =>
    cases hw : fs.writable (getPath a.out_file) with
    | false =>
      rw [stdoutStage_outFail ho hw] at h
      simp at h
    | true =>
      rw [stdoutStage_out ho hw] at h
      exact stderrStage_strArg_not_exited fs child a _ s _ n h

theorem close_decomp_spawnStage {child : ChildModel} {a : ParsedArgs}
    {evts : List Event} {outT errT : Option String} {r : ChildResult}
    {n : Int} {p : String}
    (hc : child a.command a.arguments = some r) (hn : r.returncode = n)
    (hT : Event.openWrite p ∈ evts → outT = some p ∨ errT = some p)
    (hp : Event.openWrite p ∈
      (spawnStage child a evts StdinArg.noRedirect outT errT).events) :
    ∃ l1 l2,
      (spawnStage child a evts StdinArg.noRedirect outT errT).events =
        l1 ++ Event.closeFile p :: l2 ∧
      Event.childExit n ∈ l1 ∧ Event.exitProc n ∈ l2 := by
  subst hn
  rw [spawnStage_success hc] at hp ⊢
  have hp' : Event.openWrite p ∈ evts := by
    simp only [List.mem_append, List.mem_cons, mem_writesOf_iff,
      mem_closesOf_iff, List.mem_singleton, reduceCtorEq, and_false,
      false_and, exists_false, or_false, false_or] at hp
    rcases hp with hp | hp
    · exact hp
    · simp at hp
  rcases hT hp' with h | h
  · subst h
    refine ⟨evts
        ++ Event.spawn a.command a.arguments Disp.inherit (dispOf (some p)) (dispOf errT)
          :: (writesOf (some p) r.outData ++ writesOf errT r.errData
            ++ [Event.childExit r.returncode]),
      closesOf errT ++ [Event.exitProc r.returncode], ?_, by simp, by simp⟩
    simp [closesOf]
  · subst h
    refine ⟨evts
        ++ Event.spawn a.command a.arguments Disp.inherit (dispOf outT) (dispOf (some p))
          :: (writesOf outT r.outData ++ writesOf (some p) r.errData
            ++ Event.childExit r.returncode :: closesOf outT),
      [Event.exitProc r.returncode], ?_, by simp, by simp⟩
    simp [closesOf]

theorem exited_inv_spawnStage {child : ChildModel} {a : ParsedArgs}
    {evts : List Event} {outT errT : Option String} {r : ChildResult} {n : Int}
    (hc : child a.command a.arguments = some r)
    (h : (spawnStage child a evts StdinArg.noRedirect outT errT).outcome =
      Outcome.exited n) : r.returncode = n := by
  rw [spawnStage_success hc] at h
  simpa using h

/-- Claim C9: on a run that completes normally (deliberate exit with the
child's status), every file handle opened for output or error redirection
is closed after the child terminated and before the process exit: the trace
splits as `l1 ++ close :: l2` with the child's termination in `l1` and the
final exit in `l2`. -/
theorem c9_output_handles_closed_before_exit (fs : FS) (child : ChildModel)
    (a : ParsedArgs) (n : Int) (p : String)
    (hout : (runParsed fs child a).outcome = Outcome.exited n)
    (hp : Event.openWrite p ∈ (runParsed fs child a).events) :
    ∃ l1 l2,
      (runParsed fs child a).events = l1 ++ Event.closeFile p :: l2 ∧
      Event.childExit n ∈ l1 ∧ Event.exitProc n ∈ l2 := by
  unfold runParsed at hout hp ⊢
  cases hi : truthy a.in_file with
  | true =>
    cases hr : fs.read (getPath a.in_file) with
    | none =>
      rw [stdinStage_readFail hi hr] at hout
      simp at hout
    | some s =>
      rw [stdinStage_read hi hr] at hout
      exact absurd hout (stdoutStage_strArg_not_exited fs child a _ s n)
  | false =>
    rw [stdinStage_noIn hi] at hout hp ⊢
    cases ho : truthy a.out_file with
    | true =>
      cases hwo : fs.writable (getPath a.out_file) with
      | false =>
        rw [stdoutStage_outFail ho hwo] at hout
        simp at hout
      | true =>
        rw [stdoutStage_out ho hwo] at hout hp ⊢
        cases he : truthy a.err_file with
        | true =>
          cases hwe : fs.writable (getPath a.err_file) with
          | false =>
            rw [stderrStage_errFail he hwe] at hout
            simp at hout
          | true =>
            rw [stderrStage_err he hwe] at hout hp ⊢
            cases hc : child a.command a.arguments with
            | none =>
              rw [spawnStage_launchFail hc] at hout
              simp at hout
            | some r =>
              refine close_decomp_spawnStage hc (exited_inv_spawnStage hc hout)
                ?_ hp
              intro hm
              simp only [List.append_nil, List.nil_append, List.mem_append,
                List.mem_singleton, Event.openWrite.injEq] at hm
              rcases hm with h | h
              · exact Or.inl (by rw [h])
              · exact Or.inr (by rw [h])
        | false =>
          rw [stderrStage_noErr he] at hout hp ⊢
          cases hc : child a.command a.arguments with
          | none =>
            rw [spawnStage_launchFail hc] at hout
            simp at hout
          | some r =>
            refine close_decomp_spawnStage hc (exited_inv_spawnStage hc hout)
              ?_ hp
            intro hm
            simp only [List.nil_append, List.mem_singleton,
              Event.openWrite.injEq] at hm
            exact Or.inl (by rw [hm])
    | false =>
      rw [stdoutStage_noOut ho] at hout hp ⊢
      cases he : truthy a.err_file with
      | true =>
        cases hwe : fs.writable (getPath a.err_file) with
        | false =>
          rw [stderrStage_errFail he hwe] at hout
          simp at hout
        | true =>
          rw [stderrStage_err he hwe] at hout hp ⊢
          cases hc : child a.command a.arguments with
          | none =>
            rw [spawnStage_launchFail hc] at hout
            simp at hout
          | some r =>
            refine close_decomp_spawnStage hc (exited_inv_spawnStage hc hout)
              ?_ hp
            intro hm
            simp only [List.nil_append, List.mem_singleton,
              Event.openWrite.injEq] at hm
            exact Or.inr (by rw [hm])
      | false =>
        rw [stderrStage_noErr he] at hout hp ⊢
        cases hc : child a.command a.arguments with
        | none =>
          rw [spawnStage_launchFail hc] at hout
          simp at hout
        | some r =>
          refine close_decomp_spawnStage hc (exited_inv_spawnStage hc hout)
            ?_ hp
          intro hm
          simp at hm

/-- Claim C9 witness: with `--out o.txt --err e.txt` and a child exiting 7,
the `o.txt` handle's close sits between the child's termination and the
process exit. -/
theorem c9_witness :
    ∃ l1 l2,
      (runParsed sampleFS sampleChild
          ⟨none, some "o.txt", some "e.txt", "/bin/prog", []⟩).events =
        l1 ++ Event.closeFile "o.txt" :: l2 ∧
      Event.childExit 7 ∈ l1 ∧ Event.exitProc 7 ∈ l2 :=
  c9_output_handles_closed_before_exit sampleFS sampleChild
    ⟨none, some "o.txt", some "e.txt", "/bin/prog", []⟩ 7 "o.txt"
    (by decide) (by decide)

theorem str_empty_append (s : String) : "" ++ s = s :=
  rfl

theorem finalContents_cons (e : Event) (l : List Event) (p : String)
    (init : Option String) :
    finalContents (e :: l) p init = finalContents l p (writeStep p init e) :=
  rfl

theorem finalContents_append (l1 l2 : List Event) (p : String)
    (init : Option String) :
    finalContents (l1 ++ l2) p init = finalContents l2 p (finalContents l1 p init) := by
  simp [finalContents, List.foldl_append]

theorem writeStep_isSome {p : String} {acc : Option String} {e : Event}
    (h : acc.isSome = true) : (writeStep p acc e).isSome = true := by
  cases e with
  | openWrite q =>
    show (if q = p then some "" else acc).isSome = true
    split
    · rfl
    · exact h
  | writeData q d =>
    show (if q = p then some (acc.getD "" ++ d) else acc).isSome = true
    split
    · rfl
    · exact h
  | openRead q => exact h
  | readData q c => exact h
  | spawn c ar d1 d2 d3 => exact h
  | childExit c => exact h
  | closeFile q => exact h
  | exitProc c => exact h

theorem finalContents_isSome {l : List Event} {p : String} {init : Option String}
    (h : init.isSome = true) : (finalContents l p init).isSome = true := by
  induction l generalizing init with
  | nil => exact h
  | cons e l ih => exact ih (writeStep_isSome h)

/-- Claim C3: the two redirection targets behave symmetrically and
independently.  When `--out FILE` is given and openable, FILE is opened for
writing — created/truncated — strictly before any spawn in the trace; it
therefore exists afterwards whatever the child did: still present (empty)
when the launch failed and the child never ran, and on normal completion
holding exactly the bytes the child wrote to standard output.  The same
four properties hold for `--err FILE`, whether or not `--out` is given.
The only cross-stream conditions are the ones the script's line order
forces: the input file (read first, lines 16-18) must be readable when
given, and reaching the error-file open (line 28) requires the output file
(opened first, line 23) to be openable when given; content equality also
assumes the two targets are distinct paths, since two write handles on one
file interleave. -/
theorem c3_redirect_targets_truncated_and_capture
    (fs : FS) (child : ChildModel) (a : ParsedArgs)
    (hin : truthy a.in_file = true → (fs.read (getPath a.in_file)).isSome = true) :
    (truthy a.out_file = true → fs.writable (getPath a.out_file) = true →
      (∃ l1 l2,
        (runParsed fs child a).events =
          l1 ++ Event.openWrite (getPath a.out_file) :: l2 ∧
        ∀ c ar d1 d2 d3, Event.spawn c ar d1 d2 d3 ∉ l1) ∧
      (∀ init,
        (finalContents (runParsed fs child a).events (getPath a.out_file)
          init).isSome = true) ∧
      ((truthy a.err_file = true → fs.writable (getPath a.err_file) = true) →
        truthy a.in_file = false → child a.command a.arguments = none →
        ∀ init,
          finalContents (runParsed fs child a).events (getPath a.out_file) init =
            some "") ∧
      (∀ r, child a.command a.arguments = some r → truthy a.in_file = false →
        (truthy a.err_file = true → fs.writable (getPath a.err_file) = true) →
        (truthy a.err_file = true → getPath a.err_file ≠ getPath a.out_file) →
        (runParsed fs child a).outcome = Outcome.exited r.returncode ∧
        ∀ init,
          finalContents (runParsed fs child a).events (getPath a.out_file) init =
            some r.outData)) ∧
    (truthy a.err_file = true → fs.writable (getPath a.err_file) = true →
      (truthy a.out_file = true → fs.writable (getPath a.out_file) = true) →
      (∃ l1 l2,
        (runParsed fs child a).events =
          l1 ++ Event.openWrite (getPath a.err_file) :: l2 ∧
        ∀ c ar d1 d2 d3, Event.spawn c ar d1 d2 d3 ∉ l1) ∧
      (∀ init,
        (finalContents (runParsed fs child a).events (getPath a.err_file)
          init).isSome = true) ∧
      (truthy a.in_file = false → child a.command a.arguments = none →
        ∀ init,
          finalContents (runParsed fs child a).events (getPath a.err_file) init =
            some "") ∧
      (∀ r, child a.command a.arguments = some r → truthy a.in_file = false →
        (truthy a.out_file = true → getPath a.out_file ≠ getPath a.err_file) →
        (runParsed fs child a).outcome = Outcome.exited r.returncode ∧
        ∀ init,
          finalContents (runParsed fs child a).events (getPath a.err_file) init =
            some r.errData)) := by
  constructor
  · intro hout hwo
    have hA : ∃ l1 l2,
        (runParsed fs child a).events =
          l1 ++ Event.openWrite (getPath a.out_file) :: l2 ∧
        ∀ c ar d1 d2 d3, Event.spawn c ar d1 d2 d3 ∉ l1 := by
      unfold runParsed
      cases hi : truthy a.in_file with
      | false =>
        rw [stdinStage_noIn hi, stdoutStage_out hout hwo]
        obtain ⟨l, hl⟩ :=
          events_prefix_stderrStage fs child a
            ([] ++ [Event.openWrite (getPath a.out_file)]) StdinArg.noRedirect
            (some (getPath a.out_file))
        exact ⟨[], l, by simpa using hl, by simp⟩
      | true =>
        obtain ⟨s, hr⟩ := Option.isSome_iff_exists.mp (hin hi)
        rw [stdinStage_read hi hr, stdoutStage_out hout hwo]
        obtain ⟨l, hl⟩ :=
          events_prefix_stderrStage fs child a
            ([Event.openRead (getPath a.in_file),
              Event.readData (getPath a.in_file) s]
              ++ [Event.openWrite (getPath a.out_file)]) (StdinArg.strArg s)
            (some (getPath a.out_file))
        refine ⟨[Event.openRead (getPath a.in_file),
          Event.readData (getPath a.in_file) s], l, ?_, by simp⟩
        rw [hl]
        simp
    refine ⟨hA, ?_, ?_, ?_⟩
    · intro init
      obtain ⟨l1, l2, hE, -⟩ := hA
      rw [hE, finalContents_append, finalContents_cons]
      have hw : writeStep (getPath a.out_file)
          (finalContents l1 (getPath a.out_file) init)
          (Event.openWrite (getPath a.out_file)) = some "" := by
        simp [writeStep]
      rw [hw]
      exact finalContents_isSome rfl
    · intro hweI hiF hc init
      unfold runParsed
      rw [stdinStage_noIn hiF, stdoutStage_out hout hwo]
      cases he : truthy a.err_file with
      | false =>
        rw [stderrStage_noErr he, spawnStage_launchFail hc]
        simp [finalContents, writeStep]
      | true =>
        rw [stderrStage_err he (hweI he), spawnStage_launchFail hc]
        by_cases hpe : getPath a.err_file = getPath a.out_file
        · simp [finalContents, writeStep, hpe]
        · simp [finalContents, writeStep, hpe]
    · intro r hc hiF hweI hne
      unfold runParsed
      rw [stdinStage_noIn hiF, stdoutStage_out hout hwo]
      cases he : truthy a.err_file with
      | false =>
        rw [stderrStage_noErr he, spawnStage_success hc]
        refine ⟨rfl, ?_⟩
        intro init
        simp [finalContents, writeStep, writesOf, closesOf, str_empty_append]
      | true =>
        rw [stderrStage_err he (hweI he), spawnStage_success hc]
        have hne' : getPath a.err_file ≠ getPath a.out_file := hne he
        refine ⟨rfl, ?_⟩
        intro init
        simp [finalContents, writeStep, writesOf, closesOf, str_empty_append, hne']
  · intro he hwee hwoI
    have hA' : ∃ l1 l2,
        (runParsed fs child a).events =
          l1 ++ Event.openWrite (getPath a.err_file) :: l2 ∧
        ∀ c ar d1 d2 d3, Event.spawn c ar d1 d2 d3 ∉ l1 := by
      unfold runParsed
      cases hi : truthy a.in_file with
      | false =>
        rw [stdinStage_noIn hi]
        cases ho : truthy a.out_file with
        | false =>
          rw [stdoutStage_noOut ho, stderrStage_err he hwee]
          obtain ⟨l, hl⟩ :=
            events_prefix_spawnStage child a
              ([] ++ [Event.openWrite (getPath a.err_file)]) StdinArg.noRedirect
              none (some (getPath a.err_file))
          exact ⟨[], l, by simpa using hl, by simp⟩
        | true =>
          rw [stdoutStage_out ho (hwoI ho), stderrStage_err he hwee]
          obtain ⟨l, hl⟩ :=
            events_prefix_spawnStage child a
              (([] ++ [Event.openWrite (getPath a.out_file)])
                ++ [Event.openWrite (getPath a.err_file)]) StdinArg.noRedirect
              (some (getPath a.out_file)) (some (getPath a.err_file))
          refine ⟨[Event.openWrite (getPath a.out_file)], l, ?_, by simp⟩
          rw [hl]
          simp
      | true =>
        obtain ⟨s, hr⟩ := Option.isSome_iff_exists.mp (hin hi)
        rw [stdinStage_read hi hr]
        cases ho : truthy a.out_file with
        | false =>
          rw [stdoutStage_noOut ho, stderrStage_err he hwee]
          obtain ⟨l, hl⟩ :=
            events_prefix_spawnStage child a
              ([Event.openRead (getPath a.in_file),
                Event.readData (getPath a.in_file) s]
                ++ [Event.openWrite (getPath a.err_file)]) (StdinArg.strArg s)
              none (some (getPath a.err_file))
          refine ⟨[Event.openRead (getPath a.in_file),
            Event.readData (getPath a.in_file) s], l, ?_, by simp⟩
          rw [hl]
          simp
        | true =>
          rw [stdoutStage_out ho (hwoI ho), stderrStage_err he hwee]
          obtain ⟨l, hl⟩ :=
            events_prefix_spawnStage child a
              (([Event.openRead (getPath a.in_file),
                Event.readData (getPath a.in_file) s]
                ++ [Event.openWrite (getPath a.out_file)])
                ++ [Event.openWrite (getPath a.err_file)]) (StdinArg.strArg s)
              (some (getPath a.out_file)) (some (getPath a.err_file))
          refine ⟨[Event.openRead (getPath a.in_file),
            Event.readData (getPath a.in_file) s,
            Event.openWrite (getPath a.out_file)], l, ?_, by simp⟩
          rw [hl]
          simp
    refine ⟨hA', ?_, ?_, ?_⟩
    · intro init
      obtain ⟨l1, l2, hE, -⟩ := hA'
      rw [hE, finalContents_append, finalContents_cons]
      have hw : writeStep (getPath a.err_file)
          (finalContents l1 (getPath a.err_file) init)
          (Event.openWrite (getPath a.err_file)) = some "" := by
        simp [writeStep]
      rw [hw]
      exact finalContents_isSome rfl
    · intro hiF hc init
      unfold runParsed
      rw [stdinStage_noIn hiF]
      cases ho : truthy a.out_file with
      | false =>
        rw [stdoutStage_noOut ho, stderrStage_err he hwee, spawnStage_launchFail hc]
        simp [finalContents, writeStep]
      | true =>
        rw [stdoutStage_out ho (hwoI ho), stderrStage_err he hwee,
          spawnStage_launchFail hc]
        simp [finalContents, writeStep]
    · intro r hc hiF hneO
      unfold runParsed
      rw [stdinStage_noIn hiF]
      cases ho : truthy a.out_file with
      | false =>
        rw [stdoutStage_noOut ho, stderrStage_err he hwee, spawnStage_success hc]
        refine ⟨rfl, ?_⟩
        intro init
        simp [finalContents, writeStep, writesOf, closesOf, str_empty_append]
      | true =>
        have hne := hneO ho
        rw [stdoutStage_out ho (hwoI ho), stderrStage_err he hwee,
          spawnStage_success hc]
        refine ⟨rfl, ?_⟩
        intro init
        simp [finalContents, writeStep, writesOf, closesOf, str_empty_append, hne]

/-- Claim C3 witness: with `--out o.txt --err e.txt` and a child that exits
7 writing fixed bytes to each stream, the run exits 7, `o.txt` holds
exactly the child's standard output and `e.txt` exactly its standard
error. -/
theorem c3_witness :
    (runParsed sampleFS sampleChild
        ⟨none, some "o.txt", some "e.txt", "/bin/prog", []⟩).outcome =
      Outcome.exited 7 ∧
    finalContents
        (runParsed sampleFS sampleChild
          ⟨none, some "o.txt", some "e.txt", "/bin/prog", []⟩).events
        "o.txt" none =
      some "out-bytes" ∧
    finalContents
        (runParsed sampleFS sampleChild
          ⟨none, some "o.txt", some "e.txt", "/bin/prog", []⟩).events
        "e.txt" none =
      some "err-bytes" := by
  have hOut :=
    ((c3_redirect_targets_truncated_and_capture sampleFS sampleChild
        ⟨none, some "o.txt", some "e.txt", "/bin/prog", []⟩
        (by decide)).1 (by decide) (by decide)).2.2.2
      ⟨7, "out-bytes", "err-bytes"⟩ rfl (by decide) (by decide) (by decide)
  have hErr :=
    ((c3_redirect_targets_truncated_and_capture sampleFS sampleChild
        ⟨none, some "o.txt", some "e.txt", "/bin/prog", []⟩
        (by decide)).2 (by decide) (by decide) (by decide)).2.2.2
      ⟨7, "out-bytes", "err-bytes"⟩ rfl (by decide) (by decide)
  exact ⟨hOut.1, hOut.2 none, hErr.2 none⟩

end Redirect
